import Mathlib

/-!
Verification of the Cloudforms VSManager (src/Cloudforms/managers/vs.py),
a thin wrapper that turns method calls into HTTP requests against the
/vms endpoints of a Cloudforms REST API and normalizes the responses.

The manager itself is embedded directly from the source.  The helpers it
imports from Cloudforms.utils (update_params, normalize_object,
normalize_collection) are not part of the repository snapshot; they are
modelled from the specification and marked as such in their doc comments.
-/

namespace Cloudforms

/-- JSON-like values exchanged with the REST API: the raw responses of the
client and the values of parameter mappings. -/
inductive JVal where
  | str (s : String)
  | num (n : Int)
  | bool (b : Bool)
  | null
  | obj (fields : List (String × JVal))
  | arr (elems : List JVal)

/-- A parameter mapping: string keys to JSON-like values, as passed for
query parameters and POST bodies. -/
abbrev Params := List (String × JVal)

/-- Lookup of a key in a parameter mapping or an object: the first binding
of the key wins. -/
def lookupKey : List (String × JVal) → String → Option JVal
  | [], _ => none
  | (k, v) :: rest, key => if k = key then some v else lookupKey rest key

/-- Modelled from the spec: update_params from Cloudforms.utils, whose
source is not in the repository snapshot.  The spec fixes it as a pure
merge taking the caller parameters and the enforced defaults to a merged
mapping in which the enforced defaults always win on key collision, and a
missing caller mapping (None in Python) contributes no keys.  Placing the
defaults first makes them win under the first-binding-wins lookup while
every caller binding is retained. -/
def update_params (params : Option Params) (updates : Params) : Params :=
  updates ++ params.getD []

/-- Modelled from the spec: normalize_object from Cloudforms.utils, whose
source is not in the repository snapshot.  The spec describes it as
unwrapping one envelope level of the transport response: an object whose
envelope field "resources" is present is replaced by the value of that
field; the spec fixes no transformation for other shapes, so they pass
through unchanged. -/
def normalize_object (raw : JVal) : JVal :=
  match raw with
  | .obj fields =>
    match lookupKey fields "resources" with
    | some inner => inner
    | none => .obj fields
  | other => other

/-- Modelled from the spec: normalize_collection from Cloudforms.utils,
whose source is not in the repository snapshot.  The spec describes the
collection response as an array or a wrapped array, normalized by applying
the same per-element unwrapping while preserving element order; the spec
fixes nothing for non-collection shapes, which yield the empty sequence. -/
def normalize_collection (raw : JVal) : List JVal :=
  match raw with
  | .arr elems => elems.map normalize_object
  | .obj fields =>
    match lookupKey fields "resources" with
    | some (.arr elems) => elems.map normalize_object
    | _ => []
  | _ => []

/-- HTTP methods used by the manager. -/
inductive HttpMethod where
  | get
  | post

/-- One request handed to the external API client: client.call(method,
path, params=..., data=...). -/
structure Request where
  method : HttpMethod
  path : String
  params : Option Params
  data : Option Params

/-- The manager: it holds nothing but the reference to the external API
client stored by the constructor.  The client maps a request to a raw JSON
response or to an error of type epsilon. -/
structure VSManager (ε : Type) where
  client : Request → Except ε JVal

/-- The request emitted by get: GET /vms/<id> with the merged mapping as
query parameters (vs.py lines 43 to 45). -/
def getRequest (_id : String) (params : Option Params) : Request :=
  ⟨.get, "/vms/" ++ _id, some (update_params params [("expand", .str "resources")]), none⟩

/-- The request emitted by list: GET /vms with the merged mapping as query
parameters (vs.py lines 59 to 61). -/
def listRequest (params : Option Params) : Request :=
  ⟨.get, "/vms", some (update_params params [("expand", .str "resources")]), none⟩

/-- The request emitted by perform_action: POST /vms/<id> with the merged
mapping as the request body, not as query parameters (vs.py lines 78 to
80). -/
def actionRequest (_id action : String) (params : Option Params) : Request :=
  ⟨.post, "/vms/" ++ _id, none, some (update_params params [("action", .str action)])⟩

/-- VSManager.get: merges the enforced default expand=resources into the
caller parameters, delegates one GET to the client and normalizes the
response.  The first component records the requests handed to the client,
in order. -/
def VSManager.get {ε : Type} (m : VSManager ε) (_id : String) (params : Option Params) :
    List Request × Except ε JVal :=
  ([getRequest _id params], (m.client (getRequest _id params)).map normalize_object)

/-- VSManager.list: merges the enforced default expand=resources into the
caller parameters, delegates one GET to the client and normalizes the
collection response. -/
def VSManager.list {ε : Type} (m : VSManager ε) (params : Option Params) :
    List Request × Except ε (List JVal) :=
  ([listRequest params], (m.client (listRequest params)).map normalize_collection)

/-- VSManager.perform_action: merges the enforced binding of the key
action to the action name into the caller parameters, delegates one POST
to the client with the merged mapping as body, and normalizes the
response. -/
def VSManager.perform_action {ε : Type} (m : VSManager ε) (_id action : String)
    (params : Option Params) : List Request × Except ε JVal :=
  ([actionRequest _id action params],
    (m.client (actionRequest _id action params)).map normalize_object)

/-- VSManager.start delegates to perform_action with the action name
start (vs.py line 98). -/
def VSManager.start {ε : Type} (m : VSManager ε) (_id : String) (params : Option Params) :
    List Request × Except ε JVal :=
  m.perform_action _id "start" params

/-- VSManager.stop delegates to perform_action with the action name stop
(vs.py line 114). -/
def VSManager.stop {ε : Type} (m : VSManager ε) (_id : String) (params : Option Params) :
    List Request × Except ε JVal :=
  m.perform_action _id "stop" params

/-- VSManager.suspend delegates to perform_action with the action name
suspend (vs.py line 130). -/
def VSManager.suspend {ε : Type} (m : VSManager ε) (_id : String) (params : Option Params) :
    List Request × Except ε JVal :=
  m.perform_action _id "suspend" params

/-- VSManager.delete delegates to perform_action with the action name
delete (vs.py line 144). -/
def VSManager.delete {ε : Type} (m : VSManager ε) (_id : String) (params : Option Params) :
    List Request × Except ε JVal :=
  m.perform_action _id "delete" params

/-- The operations the manager exposes, as one syntactic type, so that
properties common to all of them can be stated once. -/
inductive Op where
  | get (_id : String) (params : Option Params)
  | list (params : Option Params)
  | perform_action (_id action : String) (params : Option Params)
  | start (_id : String) (params : Option Params)
  | stop (_id : String) (params : Option Params)
  | suspend (_id : String) (params : Option Params)
  | delete (_id : String) (params : Option Params)

/-- The result of one operation: a normalized object for get and the
action methods, a normalized ordered collection for list; errors of the
client pass through. -/
inductive OpResult (ε : Type) where
  | object (r : Except ε JVal)
  | collection (r : Except ε (List JVal))

/-- The error carried by a result, when there is one. -/
def OpResult.errorOf {ε : Type} : OpResult ε → Option ε
  | .object (Except.error e) => some e
  | .collection (Except.error e) => some e
  | _ => none

/-- Running one operation on the manager: the post-state of the manager,
the requests delegated to the client, and the result.  The Python methods
never assign to self, so the post-state is the manager unchanged. -/
def VSManager.run {ε : Type} (m : VSManager ε) : Op → VSManager ε × List Request × OpResult ε
  | .get i p => (m, (m.get i p).1, .object (m.get i p).2)
  | .list p => (m, (m.list p).1, .collection (m.list p).2)
  | .perform_action i a p => (m, (m.perform_action i a p).1, .object (m.perform_action i a p).2)
  | .start i p => (m, (m.start i p).1, .object (m.start i p).2)
  | .stop i p => (m, (m.stop i p).1, .object (m.stop i p).2)
  | .suspend i p => (m, (m.suspend i p).1, .object (m.suspend i p).2)
  | .delete i p => (m, (m.delete i p).1, .object (m.delete i p).2)

/-- A binding found in the left part of an append is found in the whole. -/
theorem lookupKey_append_left {xs ys : List (String × JVal)} {k : String} {v : JVal}
    (h : lookupKey xs k = some v) : lookupKey (xs ++ ys) k = some v := by
  induction xs with
  | nil => simp [lookupKey] at h
  | cons hd tl ih =>
    obtain ⟨a, b⟩ := hd
    simp only [List.cons_append, lookupKey] at h ⊢
    by_cases hk : a = k
    · simpa [hk] using h
    · rw [if_neg hk] at h ⊢
      exact ih h

/-- Lookup skips a head binding with a different key. -/
theorem lookupKey_cons_ne {a : String} {b : JVal} {ys : List (String × JVal)} {k : String}
    (h : a ≠ k) : lookupKey ((a, b) :: ys) k = lookupKey ys k := by
  simp [lookupKey, h]

/-- The enforced head default is found first in the merged mapping. -/
theorem lookupKey_update_params_head (p : Option Params) (k : String) (v : JVal) :
    lookupKey (update_params p [(k, v)]) k = some v := by
  show lookupKey ((k, v) :: p.getD []) k = some v
  simp [lookupKey]

/-- A caller binding under a key distinct from the single enforced default
is found unchanged in the merged mapping. -/
theorem lookupKey_update_params_tail (p : Params) (a : String) (b : JVal) (k : String)
    (hne : k ≠ a) : lookupKey (update_params (some p) [(a, b)]) k = lookupKey p k := by
  show lookupKey ((a, b) :: p) k = lookupKey p k
  exact lookupKey_cons_ne (fun h => hne h.symm)

/-- C1: the parameter merge gives the enforced defaults of the method
precedence on key collision.  Whenever the enforced defaults bind a key,
the merged mapping handed to the client binds that key to the enforced
value, whatever the caller supplied for it; in particular a caller cannot
override the action key of perform_action, whose request body always binds
action to the action name of the method. -/
theorem update_params_defaults_win (caller defaults : Params) (k : String) (v : JVal)
    (hd : lookupKey defaults k = some v) :
    lookupKey (update_params (some caller) defaults) k = some v ∧
    ∀ (i a : String),
      lookupKey ((actionRequest i a (some caller)).data.getD []) "action"
        = some (JVal.str a) := by
  constructor
  · have hu : update_params (some caller) defaults = defaults ++ caller := rfl
    rw [hu]
    exact lookupKey_append_left hd
  · intro i a
    exact lookupKey_update_params_head (some caller) "action" (JVal.str a)

theorem update_params_defaults_win_witness :
    lookupKey (update_params (some [("action", JVal.str "stop")]) [("action", JVal.str "start")])
      "action" = some (JVal.str "start") ∧
    lookupKey ((actionRequest "7" "start" (some [("action", JVal.str "stop")])).data.getD [])
      "action" = some (JVal.str "start") :=
  ⟨(update_params_defaults_win [("action", JVal.str "stop")] [("action", JVal.str "start")]
      "action" (JVal.str "start") (by simp [lookupKey])).1,
   (update_params_defaults_win [("action", JVal.str "stop")] [("action", JVal.str "start")]
      "action" (JVal.str "start") (by simp [lookupKey])).2 "7" "start"⟩

/-- C2: start, stop, suspend and delete coincide with perform_action at
the action names start, stop, suspend and delete respectively, for every
id and every optional params mapping: they emit identical requests to the
client and return identical results. -/
theorem lifecycle_ops_delegate {ε : Type} (m : VSManager ε) (i : String) (p : Option Params) :
    m.start i p = m.perform_action i "start" p ∧
    m.stop i p = m.perform_action i "stop" p ∧
    m.suspend i p = m.perform_action i "suspend" p ∧
    m.delete i p = m.perform_action i "delete" p :=
  ⟨rfl, rfl, rfl, rfl⟩

/-- C3: for every id and every optional params mapping, get delegates
exactly one client call, a GET to the path /vms/<id>, whose query
parameters bind expand to resources whatever other keys the caller
supplied. -/
theorem get_emits_single_get {ε : Type} (m : VSManager ε) (i : String) (p : Option Params) :
    (m.get i p).1 = [getRequest i p] ∧
    (getRequest i p).method = HttpMethod.get ∧
    (getRequest i p).path = "/vms/" ++ i ∧
    lookupKey ((getRequest i p).params.getD []) "expand" = some (JVal.str "resources") :=
  ⟨rfl, rfl, rfl, lookupKey_update_params_head p "expand" (JVal.str "resources")⟩

/-- C4: for every id and every optional params mapping, perform_action at
the action name start delegates exactly one client call, a POST to the
path /vms/<id> whose body binds action to start; the merged mapping is
sent as the POST body while the query parameters stay empty. -/
theorem perform_action_start_post {ε : Type} (m : VSManager ε) (i : String) (p : Option Params) :
    (m.perform_action i "start" p).1 = [actionRequest i "start" p] ∧
    (actionRequest i "start" p).method = HttpMethod.post ∧
    (actionRequest i "start" p).path = "/vms/" ++ i ∧
    lookupKey ((actionRequest i "start" p).data.getD []) "action" = some (JVal.str "start") ∧
    (actionRequest i "start" p).params = none :=
  ⟨rfl, rfl, rfl, lookupKey_update_params_head p "action" (JVal.str "start"), rfl⟩

/-- C5: for every params mapping passed to list, the emitted request is a
GET to /vms whose query parameters bind expand to resources, and the merge
retains every caller binding whose key does not collide with the enforced
default. -/
theorem list_emits_get_vms {ε : Type} (m : VSManager ε) (p : Params) (k : String) (v : JVal)
    (hk : lookupKey p k = some v) (hne : k ≠ "expand") :
    (m.list (some p)).1 = [listRequest (some p)] ∧
    (listRequest (some p)).method = HttpMethod.get ∧
    (listRequest (some p)).path = "/vms" ∧
    lookupKey ((listRequest (some p)).params.getD []) "expand" = some (JVal.str "resources") ∧
    lookupKey ((listRequest (some p)).params.getD []) k = some v := by
  refine ⟨rfl, rfl, rfl, lookupKey_update_params_head (some p) "expand" (JVal.str "resources"), ?_⟩
  show lookupKey (update_params (some p) [("expand", JVal.str "resources")]) k = some v
  rw [lookupKey_update_params_tail p "expand" (JVal.str "resources") k hne]
  exact hk

theorem list_emits_get_vms_witness :
    ((⟨fun _ => Except.ok JVal.null⟩ : VSManager Unit).list
        (some [("limit", JVal.str "5")])).1 = [listRequest (some [("limit", JVal.str "5")])] ∧
    (listRequest (some [("limit", JVal.str "5")])).method = HttpMethod.get ∧
    (listRequest (some [("limit", JVal.str "5")])).path = "/vms" ∧
    lookupKey ((listRequest (some [("limit", JVal.str "5")])).params.getD []) "expand"
      = some (JVal.str "resources") ∧
    lookupKey ((listRequest (some [("limit", JVal.str "5")])).params.getD []) "limit"
      = some (JVal.str "5") :=
  list_emits_get_vms (⟨fun _ => Except.ok JVal.null⟩ : VSManager Unit)
    [("limit", JVal.str "5")] "limit" (JVal.str "5") (by simp [lookupKey])
    (by simp)

/-- C6: when the response of the client to the GET request of get is an
object wrapped in the resources envelope, get returns the inner mapping
unchanged; the spec example with id 42 and power_state on is the witness
below. -/
theorem get_unwraps_envelope {ε : Type} (m : VSManager ε) (i : String) (p : Option Params)
    (inner : JVal)
    (hc : m.client (getRequest i p) = Except.ok (JVal.obj [("resources", inner)])) :
    (m.get i p).2 = Except.ok inner := by
  show (m.client (getRequest i p)).map normalize_object = Except.ok inner
  rw [hc]
  simp [Except.map, normalize_object, lookupKey]

theorem get_unwraps_envelope_witness :
    ((⟨fun _ => Except.ok (JVal.obj [("resources",
        JVal.obj [("id", JVal.str "42"), ("power_state", JVal.str "on")])])⟩ :
      VSManager Unit).get "42" none).2
      = Except.ok (JVal.obj [("id", JVal.str "42"), ("power_state", JVal.str "on")]) :=
  get_unwraps_envelope
    (⟨fun _ => Except.ok (JVal.obj [("resources",
        JVal.obj [("id", JVal.str "42"), ("power_state", JVal.str "on")])])⟩ : VSManager Unit)
    "42" none (JVal.obj [("id", JVal.str "42"), ("power_state", JVal.str "on")]) rfl

/-- C7: when the response of the client to the GET on /vms is an array
wrapped in the resources envelope, list returns the ordered sequence of
the unwrapped mapping of each element, in the order of the response
array. -/
theorem list_unwraps_collection {ε : Type} (m : VSManager ε) (p : Option Params)
    (elems : List JVal)
    (hc : m.client (listRequest p) = Except.ok (JVal.obj [("resources", JVal.arr elems)])) :
    (m.list p).2 = Except.ok (elems.map normalize_object) := by
  show (m.client (listRequest p)).map normalize_collection = Except.ok (elems.map normalize_object)
  rw [hc]
  simp [Except.map, normalize_collection, lookupKey]

theorem list_unwraps_collection_witness :
    ((⟨fun _ => Except.ok (JVal.obj [("resources", JVal.arr
        [JVal.obj [("id", JVal.str "1")], JVal.obj [("id", JVal.str "2")]])])⟩ :
      VSManager Unit).list none).2
      = Except.ok (List.map normalize_object
          [JVal.obj [("id", JVal.str "1")], JVal.obj [("id", JVal.str "2")]]) :=
  list_unwraps_collection
    (⟨fun _ => Except.ok (JVal.obj [("resources", JVal.arr
        [JVal.obj [("id", JVal.str "1")], JVal.obj [("id", JVal.str "2")]])])⟩ : VSManager Unit)
    none [JVal.obj [("id", JVal.str "1")], JVal.obj [("id", JVal.str "2")]] rfl

/-- C8: every operation propagates an error of the client unchanged to its
caller: when the client fails with an error e, the operation fails with
the same e, having delegated exactly one client call, with no retry; the
property holds for every id and action name, so no local validation of
either takes place. -/
theorem ops_propagate_client_errors {ε : Type} (m : VSManager ε) (op : Op) (e : ε)
    (hc : ∀ r, m.client r = Except.error e) :
    (m.run op).2.1.length = 1 ∧ OpResult.errorOf (m.run op).2.2 = some e := by
  cases op <;>
    simp [VSManager.run, VSManager.get, VSManager.list, VSManager.perform_action,
      VSManager.start, VSManager.stop, VSManager.suspend, VSManager.delete,
      OpResult.errorOf, Except.map, hc]

theorem ops_propagate_client_errors_witness :
    ((⟨fun _ => Except.error "boom"⟩ : VSManager String).run (Op.get "1" none)).2.1.length = 1 ∧
    OpResult.errorOf
      ((⟨fun _ => Except.error "boom"⟩ : VSManager String).run (Op.get "1" none)).2.2
      = some "boom" :=
  ops_propagate_client_errors (⟨fun _ => Except.error "boom"⟩ : VSManager String)
    (Op.get "1" none) "boom" (fun _ => rfl)

/-- C9: the manager is stateless: its only state is the client reference
stored by the constructor, every operation leaves it unchanged, and the
only effect of an operation is the single delegated client call. -/
theorem run_preserves_manager {ε : Type} (m : VSManager ε) (op : Op) :
    (m.run op).1 = m ∧ (m.run op).2.1.length = 1 := by
  cases op <;> exact ⟨rfl, rfl⟩

/-- C10: omitting the optional params (None in Python) behaves exactly as
passing an empty mapping, for get, list and perform_action alike, and in
that case the emitted mapping carries only the enforced default of the
method: expand bound to resources for the reads, action bound to the
action name for perform_action. -/
theorem none_params_eq_empty {ε : Type} (m : VSManager ε) (i a : String) :
    m.get i none = m.get i (some []) ∧
    m.list none = m.list (some []) ∧
    m.perform_action i a none = m.perform_action i a (some []) ∧
    (getRequest i none).params = some [("expand", JVal.str "resources")] ∧
    (listRequest none).params = some [("expand", JVal.str "resources")] ∧
    (actionRequest i a none).data = some [("action", JVal.str a)] :=
  ⟨rfl, rfl, rfl, rfl, rfl, rfl⟩

end Cloudforms
